import Mathlib

/-!
Shallow embedding of `src/LDATA/ldata_unlock_local_api.py` (the LDATA serial
modification tool).  Python strings are modelled as `List Char`; the serial
console is modelled by environment records that supply the text the device
would have produced for each command cycle; Python exceptions that a method
catches internally are modelled by `Option` propagation inside that method's
embedding.  Caught-and-logged errors that make a method return `None`/`False`
(the spec's ParseError / VerificationError outcomes) are modelled by the
corresponding `none` / `false` results.
-/

set_option maxRecDepth 10000

abbrev Chars := List Char

/-- Prefix test on character lists, mirroring how Python substring search
relates to its operand at each offset. -/
def isPrefOf : Chars → Chars → Bool
  | [], _ => true
  | _ :: _, [] => false
  | a :: as, b :: bs => a == b && isPrefOf as bs

/-- Substring test `needle in hay`, mirroring the Python `in` operator on
strings. -/
def isSubOf (needle : Chars) : Chars → Bool
  | [] => isPrefOf needle []
  | c :: t => isPrefOf needle (c :: t) || isSubOf needle t

/-- Split a character list at every occurrence of `sep`, mirroring Python
`str.split(sep)` for a one-character separator (keeps empty pieces). -/
def splitOnChar (sep : Char) : Chars → List Chars
  | [] => [[]]
  | c :: cs =>
    let r := splitOnChar sep cs
    if c == sep then [] :: r
    else
      match r with
      | [] => [[c]]
      | h :: t => (c :: h) :: t

def splitWsAux : Chars → Chars → List Chars
  | [], acc => if acc.isEmpty then [] else [acc.reverse]
  | c :: cs, acc =>
    if c.isWhitespace then
      if acc.isEmpty then splitWsAux cs []
      else acc.reverse :: splitWsAux cs []
    else splitWsAux cs (c :: acc)

/-- Whitespace split, mirroring Python `str.split()` with no argument: runs of
whitespace separate fields and empty fields are dropped. -/
def splitWs (s : Chars) : List Chars := splitWsAux s []

/-- Strip leading and trailing whitespace, mirroring Python `str.strip()`. -/
def stripChars (s : Chars) : Chars :=
  ((s.dropWhile Char.isWhitespace).reverse.dropWhile Char.isWhitespace).reverse

def digitsToNatGo : Chars → Nat → Option Nat
  | [], acc => some acc
  | c :: cs, acc =>
    if c.isDigit then digitsToNatGo cs (10 * acc + (c.toNat - 48)) else none

def digitsToNat : Chars → Option Nat
  | [] => none
  | cs => digitsToNatGo cs 0

/-- Decimal integer parse, mirroring Python `int(s)`: surrounding whitespace
stripped, optional sign, then decimal digits; `none` models the `ValueError`
raised on malformed input (digit-group underscores are not modelled). -/
def parseInt (s : Chars) : Option Int :=
  match stripChars s with
  | '-' :: rest => (digitsToNat rest).map fun n => -(n : Int)
  | '+' :: rest => (digitsToNat rest).map fun n => (n : Int)
  | t => (digitsToNat t).map fun n => (n : Int)

/-- Field `i` of a whitespace-split line, as in `line.split()[i]`. -/
def fieldAt (i : Nat) (line : Chars) : Chars := (splitWs line).getD i []

/-- Scan the `printenv` output for the first line containing `mmcdev=` and
return the stripped text after the first `=`, as in lines 121-126 of
`ldata_unlock_local_api.py`; `none` models the raised-and-caught
`ValueError("Could not find mmcdev in output")`. -/
def findMmcdev (output : Chars) : Option Chars :=
  (splitOnChar '\n' output).findSome? fun line =>
    if isSubOf "mmcdev=".toList line then
      some (stripChars ((splitOnChar '=' line).getD 1 []))
    else none

/-- A partition-table line qualifies when it is non-blank, its raw first
character is a decimal digit, and it splits into at least 3 fields
(lines 141-143 of the source). -/
def qualifies (line : Chars) : Bool :=
  !(stripChars line).isEmpty
    && (match line with
        | [] => false
        | c :: _ => c.isDigit)
    && decide (3 ≤ (splitWs line).length)

/-- The `max_size` / `data_part` loop of `identify_data_partition`
(lines 137-147): outer `none` models an uncaught-inside-the-loop parse
exception (`int` on field 2, or on field 0 when a new maximum is found),
inner value is the running `data_part`. -/
def scanParts : List Chars → Int → Option Int → Option (Option Int)
  | [], _, dp => some dp
  | line :: rest, maxSize, dp =>
    if qualifies line then
      match parseInt (fieldAt 2 line) with
      | none => none
      | some size =>
        if maxSize < size then
          match parseInt (fieldAt 0 line) with
          | none => none
          | some p => scanParts rest size (some p)
        else scanParts rest maxSize dp
    else scanParts rest maxSize dp

/-- Embedding of `identify_data_partition` (lines 111-153): the serial
exchanges are abstracted to the captured `printenv` output and `mmc part`
output; every exception inside the `try` is caught and turns into `none`
(the spec's ParseError outcome). -/
def identify_data_partition (printenvOut partOut : String) : Option Int :=
  match findMmcdev printenvOut.toList with
  | none => none
  | some _ =>
    match scanParts (splitOnChar '\n' partOut.toList) 0 none with
    | none => none
    | some dp => dp

/-- Python truthiness of `self.device.data_partition : Optional[int]`:
`None` and `0` are falsy, every other integer is truthy (used by the guards
at lines 184 and 262 of the source). -/
def truthy : Option Int → Bool
  | none => false
  | some n => n != 0

/-- The memory-verification check of `enable_api_access` (line 180):
`all(x in output for x in ['74', '72', '75', '65'])` — note the source
checks only these four hex codes, not the newline byte's code `0a`. -/
def memCheck (out : Chars) : Bool :=
  isSubOf "74".toList out && isSubOf "72".toList out
    && isSubOf "75".toList out && isSubOf "65".toList out

/-- Embedding of `enable_api_access` (lines 155-202).  The serial exchanges
are abstracted to the captured `md.b` dump output and `ext4ls` listing
output.  Returns `(result, api_enabled, ext4writeCount)`: the method's
boolean result, the value of `self.device.api_enabled` after the call
(it starts `false` and is assigned only at line 195), and how many
`ext4write` commands were written to the serial port.  A failed `memCheck`
raises `ValueError` (caught at line 200, returning `False` before any
filesystem command). -/
def enable_api_access (dp : Option Int) (dumpOut lsOut : String) :
    Bool × Bool × Nat :=
  if memCheck dumpOut.toList then
    if truthy dp then
      if isSubOf "HTTP_API_ALWAYS_ON".toList lsOut.toList then (true, true, 1)
      else (false, false, 1)
    else (false, false, 0)
  else (false, false, 0)

/-- The post-reboot startup banner watched for by `verify_modifications`
(line 220). -/
def apiBanner : Chars := "HTTP API server started on port".toList

/-- Whether the chunk read at poll iteration `i` exists (`in_waiting` was
non-zero) and contains the startup banner. -/
def chunkHas (chunks : List (Option Chars)) (i : Nat) : Bool :=
  match chunks.getD i none with
  | some s => isSubOf apiBanner s
  | none => false

/-- The polling loop of `verify_modifications` (lines 215-224): one fuel unit
per one-second poll iteration; each captured chunk is tested on its own
(`read_all` is checked per iteration, the buffer is not accumulated). -/
def pollBanner (chunks : List (Option Chars)) : Nat → Nat → Bool
  | 0, _ => false
  | fuel + 1, i =>
    if chunkHas chunks i then true else pollBanner chunks fuel (i + 1)

/-- Embedding of `verify_modifications` (lines 204-228): returns the boolean
result together with the number of `reset` commands written.  If
`api_enabled` is false the method returns early without issuing any reset;
otherwise exactly one reset is written and the banner is polled against the
deadline. -/
def verify_modifications (apiEnabled : Bool) (chunks : List (Option Chars))
    (timeout : Nat) : Bool × Nat :=
  if apiEnabled then (pollBanner chunks timeout 0, 1) else (false, 0)

/-- The U-Boot prompt banner watched for by `wait_for_bootloader`
(line 105). -/
def bootBanner : Chars := "MX6UL_VAR_DART(mmc)==>".toList

/-- The console bytes accumulated by `wait_for_bootloader` after `t` loop
iterations: entry `i` of the stream is the byte read at iteration `i`
(`none` when `in_waiting` was zero there). -/
def bufferAt (stream : List (Option Char)) (t : Nat) : Chars :=
  (stream.take t).filterMap id

/-- The polling loop of `wait_for_bootloader` (lines 101-109): one fuel unit
per iteration of the wall-clock-bounded `while`; the buffer accumulates one
byte per iteration with data and the banner is tested against the whole
buffer.  Returns `(found, elapsed iterations)`. -/
def wfbGo (stream : List (Option Char)) : Nat → Nat → Chars → Bool × Nat
  | 0, elapsed, _ => (false, elapsed)
  | fuel + 1, elapsed, buf =>
    match stream.getD elapsed none with
    | some c =>
      let buf2 := buf ++ [c]
      if isSubOf bootBanner buf2 then (true, elapsed + 1)
      else wfbGo stream fuel (elapsed + 1) buf2
    | none => wfbGo stream fuel (elapsed + 1) buf

/-- Embedding of `wait_for_bootloader` (lines 89-109): the `timeout`
argument bounds the number of poll iterations; on failure the loop runs the
clock out, so the elapsed count equals the timeout. -/
def wait_for_bootloader (stream : List (Option Char)) (timeout : Nat) :
    Bool × Nat :=
  wfbGo stream timeout 0 []

/-- Identity fields serialized to `device_info.json` by
`backup_device_state` (lines 80-85). -/
structure BackupInfo where
  device_id : String
  mac_addresses : Option (List (String × String))
  data_partition : Option Int
deriving DecidableEq

/-- The device record (`LDATADevice` dataclass, lines 35-41). -/
structure LDATADevice where
  serial_port : String
  device_id : Option String
  mac_addresses : Option (List (String × String))
  data_partition : Option Int
  api_enabled : Bool
deriving DecidableEq

/-- Embedding of `backup_device_state` (lines 72-87): always creates the
timestamped backup directory, and writes `device_info.json` only when
`device_id` is set (line 79).  Returns `(directory created, written
backup content)`. -/
def backup_device_state (d : LDATADevice) : Bool × Option BackupInfo :=
  (true, d.device_id.map fun id => ⟨id, d.mac_addresses, d.data_partition⟩)

/-- Environment for one execution of `run` (lines 230-295): everything the
outside world supplies — the detected ports, the operator's port choice and
confirmation answer, whether the serial open succeeds (after the bounded
backoff retries), and the console text captured at each command cycle. -/
structure Env where
  ports : List String
  portChoice : String
  connectOk : Bool
  printenvOut : String
  partOut : String
  bootStream1 : List (Option Char)
  confirmContinue : Bool
  bootStream2 : List (Option Char)
  dumpOut : String
  lsOut : String
  verifyChunks : List (Option Chars)

/-- Exit path taken by `run`. -/
inductive Outcome where
  | noPorts
  | connectError
  | partitionFail
  | userDeclined
  | bootloaderFail
  | enableFail
  | verifySuccess
  | verifyFail
deriving DecidableEq

/-- Observable result of one execution of `run`: the exit path, the device
record (when one was created), whether the serial handle was opened and
whether the `finally` cleanup released it, what `backup_device_state` did,
and how many `ext4write` and `reset` commands were written. -/
structure RunResult where
  outcome : Outcome
  device : Option LDATADevice
  serialOpened : Bool
  serialClosedAtEnd : Bool
  backupDirCreated : Bool
  backupJson : Option BackupInfo
  ext4writeCount : Nat
  resetCount : Nat
deriving DecidableEq

/-- The `try`/`except` body of `run` (lines 232-291), before the `finally`
cleanup.  Each `return` statement of the source is one branch.  A failed
`connect_serial` raises through the backoff decorator into the broad
`except` at line 289. -/
def runBody (env : Env) : RunResult :=
  if env.ports.isEmpty then
    { outcome := .noPorts, device := none, serialOpened := false,
      serialClosedAtEnd := false, backupDirCreated := false,
      backupJson := none, ext4writeCount := 0, resetCount := 0 }
  else
    let device0 : LDATADevice :=
      { serial_port := env.portChoice, device_id := none,
        mac_addresses := none, data_partition := none, api_enabled := false }
    if env.connectOk = false then
      { outcome := .connectError, device := some device0,
        serialOpened := false, serialClosedAtEnd := false,
        backupDirCreated := false, backupJson := none,
        ext4writeCount := 0, resetCount := 0 }
    else
      let bk := backup_device_state device0
      let dp := identify_data_partition env.printenvOut env.partOut
      let device1 := { device0 with data_partition := dp }
      let base : RunResult :=
        { outcome := .partitionFail, device := some device1,
          serialOpened := true, serialClosedAtEnd := false,
          backupDirCreated := bk.1, backupJson := bk.2,
          ext4writeCount := 0, resetCount := 0 }
      if truthy dp = false then base
      else if (wait_for_bootloader env.bootStream1 30).1 = false
              ∧ env.confirmContinue = false then
        { base with outcome := .userDeclined }
      else if (wait_for_bootloader env.bootStream1 30).1 = false
              ∧ (wait_for_bootloader env.bootStream2 60).1 = false then
        { base with outcome := .bootloaderFail }
      else
        let e := enable_api_access dp env.dumpOut env.lsOut
        let device2 := { device1 with api_enabled := e.2.1 }
        if e.1 = false then
          { base with
            outcome := .enableFail,
            device := some device2,
            ext4writeCount := e.2.2 }
        else
          let v := verify_modifications e.2.1 env.verifyChunks 60
          { base with
            outcome := if v.1 then .verifySuccess else .verifyFail,
            device := some device2,
            ext4writeCount := e.2.2,
            resetCount := v.2 }

/-- The `finally` clause of `run` (lines 293-295): if the serial handle was
opened (and is therefore still open here), it is closed. -/
def finalize (r : RunResult) : RunResult :=
  { r with serialClosedAtEnd := r.serialOpened }

/-- Embedding of `run` (lines 230-295): the `try` body followed
unconditionally by the `finally` cleanup. -/
def run (env : Env) : RunResult :=
  finalize (runBody env)

def envHappy : Env :=
  { ports := ["/dev/ttyUSB0"], portChoice := "/dev/ttyUSB0",
    connectOk := true, printenvOut := "mmcdev=1\n",
    partOut := "1 0x100 500 ext4\n2 0x200 9000 ext4\n",
    bootStream1 := bootBanner.map some, confirmContinue := true,
    bootStream2 := [], dumpOut := "82000000: 74 72 75 65 0a",
    lsOut := "HTTP_API_ALWAYS_ON", verifyChunks := [some apiBanner] }

/-- The `(index, size)` pair a qualifying partition-table line contributes,
when both fields parse as decimal integers. -/
def entryOf (line : Chars) : Option (Int × Int) :=
  if qualifies line then
    match parseInt (fieldAt 0 line), parseInt (fieldAt 2 line) with
    | some p, some s => some (p, s)
    | _, _ => none
  else none

/-- The `(index, size)` pairs contributed by the lines of a partition
table. -/
def entriesOf (lines : List Chars) : List (Int × Int) :=
  lines.filterMap entryOf

/-- Pure restatement of the selection loop of `identify_data_partition`
over already-parsed `(index, size)` pairs. -/
def foldSel : List (Int × Int) → Int → Option Int → Option Int
  | [], _, dp => dp
  | e :: rest, m, dp =>
    if m < e.2 then foldSel rest e.2 (some e.1) else foldSel rest m dp

/-- The maximal size among the pairs, seeded with the loop's initial
`max_size`. -/
def maxFrom (m : Int) : List (Int × Int) → Int
  | [] => m
  | e :: rest => maxFrom (max m e.2) rest

/-- The index of the first pair attaining size `M` — the specification's
reading of "the line whose size field is maximal". -/
def firstAttaining (M : Int) : List (Int × Int) → Option Int
  | [] => none
  | e :: rest => if e.2 = M then some e.1 else firstAttaining M rest

def streamC6 : List (Option Char) := bootBanner.map some

def envC3 : Env :=
  { ports := ["/dev/ttyUSB0"], portChoice := "/dev/ttyUSB0",
    connectOk := true, printenvOut := "baudrate=115200\n",
    partOut := "Partition Map for MMC device 1\n", bootStream1 := [],
    confirmContinue := false, bootStream2 := [], dumpOut := "",
    lsOut := "", verifyChunks := [] }

def envC9 : Env :=
  { ports := ["/dev/ttyUSB0"], portChoice := "/dev/ttyUSB0",
    connectOk := true, printenvOut := "mmcdev=1\n",
    partOut := "0 0x100 500 ext4", bootStream1 := [],
    confirmContinue := false, bootStream2 := [], dumpOut := "",
    lsOut := "", verifyChunks := [] }

def envC10 : Env :=
  { ports := ["/dev/ttyUSB0"], portChoice := "/dev/ttyUSB0",
    connectOk := true, printenvOut := "mmcdev=1\n",
    partOut := "1 0x100 500 ext4", bootStream1 := [],
    confirmContinue := false, bootStream2 := [], dumpOut := "",
    lsOut := "", verifyChunks := [] }

/-! Sanity checks: the embedding evaluates on concrete console captures. -/

example : identify_data_partition "mmcdev=1\n" "1 0x100 500 ext4\n2 0x200 9000 ext4\n" = some 2 := by decide

example : identify_data_partition "mmcdev=1\n" "1 0x100 0 ext4" = none := by decide

example : identify_data_partition "nothing here" "1 2 3" = none := by decide

example : enable_api_access (some 2) "82000000: 74 72 75 65 0a" "HTTP_API_ALWAYS_ON loaded" = (true, true, 1) := by decide

example : enable_api_access (some 2) "74 72 65" "HTTP_API_ALWAYS_ON" = (false, false, 0) := by decide

example : enable_api_access (some 0) "74 72 75 65" "HTTP_API_ALWAYS_ON" = (false, false, 0) := by decide

example : (wait_for_bootloader (bootBanner.map some) 30).1 = true := by decide

example : wait_for_bootloader [] 5 = (false, 5) := by decide

example : (run envHappy).outcome = Outcome.verifySuccess := by decide

example : (run envHappy).ext4writeCount = 1 ∧ (run envHappy).resetCount = 1 := by decide

example : (run envHappy).serialOpened = true ∧ (run envHappy).serialClosedAtEnd = true := by decide

example : (run envHappy).backupDirCreated = true ∧ (run envHappy).backupJson = none := by decide

/-! Claim theorems. -/

/-- C1, counterexample: a memory-dump capture that is missing the newline
byte's hex code `0a` but contains `74`, `72`, `75`, `65` does NOT make
`enable_api_access` fail — verification passes and the `ext4write` command
is issued (count 1), contradicting the claim that a dump missing any of the
expected bytes of `"true\n"` (including `0x0a`) aborts before the
filesystem write. -/
theorem enable_api_access_c1_counterexample :
    isSubOf "0a".toList (String.toList "74 72 75 65") = false
      ∧ enable_api_access (some 2) "74 72 75 65" "HTTP_API_ALWAYS_ON"
          = (true, true, 1) := by decide

/-- C1, amended: the memory-verification step checks only the four hex
codes `74`, `72`, `75`, `65` (the newline byte's code `0a` is not checked);
a dump response missing any of those four makes `enable_api_access` fail —
VerificationError caught, result `false`, `api_enabled` left `false` — and
the `ext4write` command is never issued. -/
theorem enable_api_access_c1_amended (dp : Option Int) (dumpOut lsOut : String)
    (h : isSubOf "74".toList dumpOut.toList = false
       ∨ isSubOf "72".toList dumpOut.toList = false
       ∨ isSubOf "75".toList dumpOut.toList = false
       ∨ isSubOf "65".toList dumpOut.toList = false) :
    enable_api_access dp dumpOut lsOut = (false, false, 0) := by
  have hm : memCheck dumpOut.toList = false := by
    unfold memCheck
    rcases h with h | h | h | h <;> rw [h] <;> simp
  unfold enable_api_access
  rw [hm]
  simp

/-- C1, witness for the amended theorem at a concrete dump capture. -/
theorem enable_api_access_c1_witness :
    enable_api_access (some 2) "xx" "" = (false, false, 0) :=
  enable_api_access_c1_amended (some 2) "xx" "" (Or.inl (by decide))

/-- C4: the device record's `api_enabled` field becomes true exactly when
the memory verification passed, the data-partition index was truthy, and
the post-write `ext4ls` capture contains the filename substring
`HTTP_API_ALWAYS_ON`; in particular it is never set from the `ext4write`
call alone, and the `ext4write` command is issued at most once per call. -/
theorem enable_api_access_c4 :
    ∀ (dp : Option Int) (dumpOut lsOut : String),
      ((enable_api_access dp dumpOut lsOut).2.1 = true ↔
        memCheck dumpOut.toList = true ∧ truthy dp = true
          ∧ isSubOf "HTTP_API_ALWAYS_ON".toList lsOut.toList = true)
      ∧ (enable_api_access dp dumpOut lsOut).2.2 ≤ 1 := by
  intro dp d l
  unfold enable_api_access
  cases hm : memCheck d.toList <;>
    cases ht : truthy dp <;>
      cases hs : isSubOf "HTTP_API_ALWAYS_ON".toList l.toList <;>
        simp_all

/-- C7: when the device id is unknown, `backup_device_state` creates the
backup directory but writes no backup content. -/
theorem backup_device_state_c7 (d : LDATADevice) (h : d.device_id = none) :
    backup_device_state d = (true, none) := by
  simp [backup_device_state, h]

/-- C7, witness at a freshly created device record. -/
theorem backup_device_state_c7_witness :
    backup_device_state ⟨"/dev/ttyUSB0", none, none, none, false⟩
      = (true, none) :=
  backup_device_state_c7 _ rfl

/-- C8: on every exit path of `run` the final cleanup phase leaves the
serial handle released exactly when it had been opened. -/
theorem run_c8_serial_released :
    ∀ env : Env, (run env).serialClosedAtEnd = (run env).serialOpened := by
  intro env
  simp [run, finalize]

/-- C9: when partition identification yields index 0, `run` aborts
reporting the partition-identification failure and no `ext4write` command
is ever issued, because the guards test Python truthiness (0 is falsy)
rather than comparing against `None`. -/
theorem run_c9_partition_zero (env : Env)
    (h1 : env.ports.isEmpty = false) (h2 : env.connectOk = true)
    (h3 : identify_data_partition env.printenvOut env.partOut = some 0) :
    (run env).outcome = Outcome.partitionFail
      ∧ (run env).ext4writeCount = 0 := by
  unfold run runBody
  simp [h1, h2, h3, truthy, finalize]

/-- C9, witness: a partition table whose largest partition is numbered 0. -/
theorem run_c9_witness :
    (run envC9).outcome = Outcome.partitionFail
      ∧ (run envC9).ext4writeCount = 0 :=
  run_c9_partition_zero envC9 (by decide) rfl (by decide)

/-- If no line of the partition-table output qualifies, the scan loop
leaves `data_part` untouched. -/
theorem scanParts_no_qualifying (lines : List Chars) :
    ∀ (m : Int) (dp : Option Int), (∀ l ∈ lines, qualifies l = false) →
      scanParts lines m dp = some dp := by
  induction lines with
  | nil => intro m dp _; rfl
  | cons l rest ih =>
    intro m dp h
    have hl : qualifies l = false := h l (List.mem_cons_self l rest)
    unfold scanParts
    rw [hl]
    simp only [Bool.false_eq_true, if_false]
    exact ih m dp fun x hx => h x (List.mem_cons_of_mem l hx)

/-- C3: `identify_data_partition` fails with the ParseError outcome
(`none`) whenever the expected token or pattern is absent — when no line of
the `printenv` capture contains the `mmcdev=` key, or when no line of the
partition-table capture is digit-initial with at least 3 fields — and when
the stage is reached, `run` treats that outcome as fatal, aborting with the
partition-identification failure. -/
theorem identify_data_partition_c3 :
    (∀ printenvOut partOut : String,
        findMmcdev printenvOut.toList = none →
        identify_data_partition printenvOut partOut = none)
  ∧ (∀ printenvOut partOut : String,
        (∀ line ∈ splitOnChar '\n' partOut.toList, qualifies line = false) →
        identify_data_partition printenvOut partOut = none)
  ∧ (∀ env : Env, env.ports.isEmpty = false → env.connectOk = true →
        identify_data_partition env.printenvOut env.partOut = none →
        (run env).outcome = Outcome.partitionFail) := by
  refine ⟨?_, ?_, ?_⟩
  · intro p q h
    unfold identify_data_partition
    rw [h]
  · intro p q h
    unfold identify_data_partition
    cases hf : findMmcdev p.toList with
    | none => rfl
    | some v => rw [scanParts_no_qualifying _ _ _ h]
  · intro env h1 h2 h3
    unfold run runBody
    simp [h1, h2, h3, truthy, finalize]

/-- C3, witness: a `printenv` capture without the key, a partition table
without qualifying lines, and the resulting fatal outcome in `run`. -/
theorem identify_data_partition_c3_witness :
    identify_data_partition "baudrate=115200\n" "1 2 3" = none
  ∧ identify_data_partition "mmcdev=1\n" "Partition Map for MMC device 1\n"
      = none
  ∧ (run envC3).outcome = Outcome.partitionFail :=
  ⟨identify_data_partition_c3.1 _ _ (by decide),
   identify_data_partition_c3.2.1 _ _ (by decide),
   identify_data_partition_c3.2.2 envC3 (by decide) rfl (by decide)⟩

/-- The found case of the banner-polling loop of `verify_modifications`:
if some chunk inside the deadline window contains the banner, the poll
returns true. -/
theorem pollBanner_found (chunks : List (Option Chars)) :
    ∀ (fuel i0 : Nat),
      (∃ i, i0 ≤ i ∧ i < i0 + fuel ∧ chunkHas chunks i = true) →
      pollBanner chunks fuel i0 = true := by
  intro fuel
  induction fuel with
  | zero =>
    rintro i0 ⟨i, h1, h2, -⟩
    omega
  | succ n ih =>
    rintro i0 ⟨i, h1, h2, h3⟩
    unfold pollBanner
    by_cases hc : chunkHas chunks i0 = true
    · rw [hc]
      simp
    · have hne : i ≠ i0 := fun e => hc (e ▸ h3)
      simp only [hc]
      simp only [Bool.false_eq_true, if_false]
      exact ih (i0 + 1) ⟨i, by omega, by omega, h3⟩

/-- The timeout case of the banner-polling loop: if no chunk inside the
deadline window contains the banner, the poll returns false. -/
theorem pollBanner_not_found (chunks : List (Option Chars)) :
    ∀ (fuel i0 : Nat),
      (∀ i, i0 ≤ i → i < i0 + fuel → chunkHas chunks i = false) →
      pollBanner chunks fuel i0 = false := by
  intro fuel
  induction fuel with
  | zero => intro i0 _; rfl
  | succ n ih =>
    intro i0 h
    have h0 : chunkHas chunks i0 = false := h i0 (Nat.le_refl i0) (by omega)
    unfold pollBanner
    rw [h0]
    simp only [Bool.false_eq_true, if_false]
    exact ih (i0 + 1) fun i hi1 hi2 => h i (by omega) (by omega)

/-- C5: with the modification already applied (`api_enabled` true, the
precondition for the reset to be issued at all), any serial stream whose
banner-carrying chunk arrives within 10 poll seconds of the default
60-second deadline makes `verify_modifications` return success, a stream
that never carries the banner inside the deadline makes it return failure,
and in both cases exactly one reset command is written — it never retries
the reset. -/
theorem verify_modifications_c5 (chunks : List (Option Chars)) :
    ((∃ i, i < 10 ∧ chunkHas chunks i = true) →
        verify_modifications true chunks 60 = (true, 1))
  ∧ ((∀ i, i < 60 → chunkHas chunks i = false) →
        verify_modifications true chunks 60 = (false, 1)) := by
  constructor
  · rintro ⟨i, h1, h2⟩
    unfold verify_modifications
    rw [pollBanner_found chunks 60 0 ⟨i, by omega, by omega, h2⟩]
    rfl
  · intro h
    unfold verify_modifications
    rw [pollBanner_not_found chunks 60 0 fun i _ h2 => h i (by omega)]
    rfl

/-- C5, witness: a stream delivering the banner in the first poll second,
and a silent stream. -/
theorem verify_modifications_c5_witness :
    verify_modifications true [some apiBanner] 60 = (true, 1)
  ∧ verify_modifications true [] 60 = (false, 1) :=
  ⟨(verify_modifications_c5 [some apiBanner]).1 ⟨0, by decide, by decide⟩,
   (verify_modifications_c5 []).2 (by decide)⟩

theorem isPrefOf_append (n : Chars) :
    ∀ (l l' : Chars), isPrefOf n l = true → isPrefOf n (l ++ l') = true := by
  induction n with
  | nil => intro l l' _; rfl
  | cons a as ih =>
    intro l l' h
    cases l with
    | nil => simp [isPrefOf] at h
    | cons b bs =>
      simp only [isPrefOf, Bool.and_eq_true] at h
      simp only [List.cons_append, isPrefOf, Bool.and_eq_true]
      exact ⟨h.1, ih bs l' h.2⟩

theorem isSubOf_nil_left (l : Chars) : isSubOf [] l = true := by
  cases l <;> simp [isSubOf, isPrefOf]

/-- The substring test is stable under extending the searched text on the
right: once the banner is in the buffer it stays found as the buffer
accumulates. -/
theorem isSubOf_append (n : Chars) :
    ∀ (l l' : Chars), isSubOf n l = true → isSubOf n (l ++ l') = true := by
  intro l
  induction l with
  | nil =>
    intro l' h
    cases n with
    | nil => simpa using isSubOf_nil_left l'
    | cons a as => simp [isSubOf, isPrefOf] at h
  | cons c t ih =>
    intro l' h
    simp only [isSubOf, Bool.or_eq_true] at h
    simp only [List.cons_append, isSubOf, Bool.or_eq_true]
    rcases h with h | h
    · exact Or.inl (isPrefOf_append n _ l' h)
    · exact Or.inr (ih l' h)

theorem bufferAt_succ (stream : List (Option Char)) (t : Nat) :
    bufferAt stream (t + 1)
      = bufferAt stream t ++ (stream.getD t none).toList := by
  unfold bufferAt
  rw [List.take_succ, List.filterMap_append]
  congr 1
  cases h : stream[t]? with
  | none => simp [List.getD_eq_getElem?_getD, h]
  | some o => cases o <;> simp [List.getD_eq_getElem?_getD, h]

theorem bufferAt_prefix (stream : List (Option Char)) :
    ∀ {t t' : Nat}, t ≤ t' →
      ∃ tail, bufferAt stream t' = bufferAt stream t ++ tail := by
  intro t t' h
  induction t' with
  | zero =>
    have : t = 0 := Nat.le_zero.mp h
    exact ⟨[], by simp [this]⟩
  | succ n ih =>
    rcases Nat.lt_or_ge t (n + 1) with hlt | hge
    · obtain ⟨tail, htail⟩ := ih (by omega)
      exact ⟨tail ++ (stream.getD n none).toList,
        by rw [bufferAt_succ, htail, List.append_assoc]⟩
    · have : t = n + 1 := by omega
      exact ⟨[], by simp [this]⟩

/-- Once the banner is a substring of the buffer at time `t`, it is a
substring of the buffer at every later time. -/
theorem isSubOf_bufferAt_mono (stream : List (Option Char)) {t t' : Nat}
    (h : t ≤ t') (hsub : isSubOf bootBanner (bufferAt stream t) = true) :
    isSubOf bootBanner (bufferAt stream t') = true := by
  obtain ⟨tail, htail⟩ := bufferAt_prefix stream h
  rw [htail]
  exact isSubOf_append _ _ _ hsub

/-- Success case of the `wait_for_bootloader` loop: if the banner enters
the accumulating buffer within the remaining fuel, the loop reports it. -/
theorem wfbGo_finds (stream : List (Option Char)) :
    ∀ (fuel elapsed : Nat),
      isSubOf bootBanner (bufferAt stream elapsed) = false →
      (∃ t, t ≤ elapsed + fuel
        ∧ isSubOf bootBanner (bufferAt stream t) = true) →
      (wfbGo stream fuel elapsed (bufferAt stream elapsed)).1 = true := by
  intro fuel
  induction fuel with
  | zero =>
    rintro elapsed hno ⟨t, ht, hsub⟩
    have hmono : isSubOf bootBanner (bufferAt stream elapsed) = true :=
      isSubOf_bufferAt_mono stream (show t ≤ elapsed by omega) hsub
    rw [hno] at hmono
    exact absurd hmono Bool.false_ne_true
  | succ n ih =>
    rintro elapsed hno ⟨t, ht, hsub⟩
    unfold wfbGo
    cases hc : stream.getD elapsed none with
    | some c =>
      have hb : bufferAt stream (elapsed + 1)
          = bufferAt stream elapsed ++ [c] := by
        rw [bufferAt_succ, hc]
        rfl
      simp only
      rw [← hb]
      by_cases hfound : isSubOf bootBanner (bufferAt stream (elapsed + 1)) = true
      · rw [hfound]
        rfl
      · have hnf : isSubOf bootBanner (bufferAt stream (elapsed + 1)) = false :=
          Bool.not_eq_true _ ▸ Bool.eq_false_iff.mpr hfound
        rw [hnf]
        simp only [Bool.false_eq_true, if_false]
        apply ih (elapsed + 1) hnf
        refine ⟨t, by omega, hsub⟩
        -- t cannot be at or before elapsed + 1 unless found there
    | none =>
      have hb : bufferAt stream (elapsed + 1) = bufferAt stream elapsed := by
        rw [bufferAt_succ, hc]
        simp
      simp only
      rw [← hb]
      apply ih (elapsed + 1) (hb ▸ hno)
      exact ⟨t, by omega, hsub⟩

/-- Timeout case of the `wait_for_bootloader` loop: if the banner never
enters the buffer within the fuel window, the loop runs the clock out and
the elapsed count grows by exactly the fuel. -/
theorem wfbGo_times_out (stream : List (Option Char)) :
    ∀ (fuel elapsed : Nat),
      (∀ t, t ≤ elapsed + fuel →
        isSubOf bootBanner (bufferAt stream t) = false) →
      wfbGo stream fuel elapsed (bufferAt stream elapsed)
        = (false, elapsed + fuel) := by
  intro fuel
  induction fuel with
  | zero => intro elapsed _; rfl
  | succ n ih =>
    intro elapsed h
    unfold wfbGo
    cases hc : stream.getD elapsed none with
    | some c =>
      have hb : bufferAt stream (elapsed + 1)
          = bufferAt stream elapsed ++ [c] := by
        rw [bufferAt_succ, hc]
        rfl
      simp only
      rw [← hb, h (elapsed + 1) (by omega)]
      simp only [Bool.false_eq_true, if_false]
      rw [ih (elapsed + 1) fun t ht => h t (by omega)]
      congr 1
      omega
    | none =>
      have hb : bufferAt stream (elapsed + 1) = bufferAt stream elapsed := by
        rw [bufferAt_succ, hc]
        simp
      simp only
      rw [← hb, ih (elapsed + 1) fun t ht => h t (by omega)]
      congr 1
      omega

/-- C6: whenever the exact bootloader banner substring appears in the
accumulating console buffer within the configured deadline,
`wait_for_bootloader` returns success; whenever it never appears inside the
deadline window, it returns failure and the measured elapsed iteration
count equals (hence is at least) the configured deadline. -/
theorem wait_for_bootloader_c6 (stream : List (Option Char)) (timeout : Nat) :
    ((∃ t, t ≤ timeout ∧ isSubOf bootBanner (bufferAt stream t) = true) →
        (wait_for_bootloader stream timeout).1 = true)
  ∧ ((∀ t, t ≤ timeout → isSubOf bootBanner (bufferAt stream t) = false) →
        wait_for_bootloader stream timeout = (false, timeout)
          ∧ timeout ≤ (wait_for_bootloader stream timeout).2) := by
  constructor
  · rintro ⟨t, ht, hsub⟩
    have h0 : isSubOf bootBanner (bufferAt stream 0) = false := by
      show isSubOf bootBanner [] = false
      decide
    have := wfbGo_finds stream timeout 0 h0 ⟨t, by omega, hsub⟩
    simpa [wait_for_bootloader, bufferAt] using this
  · intro h
    have := wfbGo_times_out stream timeout 0 fun t ht => h t (by omega)
    have heq : wait_for_bootloader stream timeout = (false, timeout) := by
      simpa [wait_for_bootloader, bufferAt] using this
    exact ⟨heq, by rw [heq]⟩

/-- C6, witness: a stream that types the banner byte-by-byte from the
start, and a silent stream against a short deadline. -/
theorem wait_for_bootloader_c6_witness :
    (wait_for_bootloader streamC6 30).1 = true
  ∧ wait_for_bootloader ([] : List (Option Char)) 5 = (false, 5) :=
  ⟨(wait_for_bootloader_c6 streamC6 30).1 ⟨22, by decide, by decide⟩,
   ((wait_for_bootloader_c6 [] 5).2 (by decide)).1⟩

theorem maxFrom_le_self (l : List (Int × Int)) :
    ∀ m : Int, m ≤ maxFrom m l := by
  induction l with
  | nil => intro m; exact le_refl m
  | cons e rest ih =>
    intro m
    exact le_trans (le_max_left m e.2) (ih (max m e.2))

theorem maxFrom_eq_self (l : List (Int × Int)) :
    ∀ m : Int, maxFrom m l = m → ∀ e ∈ l, e.2 ≤ m := by
  induction l with
  | nil => intro m _ e he; exact absurd he (List.not_mem_nil e)
  | cons e rest ih =>
    intro m h x hx
    have h' : maxFrom (max m e.2) rest = m := h
    have hle : max m e.2 ≤ maxFrom (max m e.2) rest :=
      maxFrom_le_self rest (max m e.2)
    rw [h'] at hle
    have hme : max m e.2 = m := le_antisymm hle (le_max_left m e.2)
    rw [hme] at h'
    rcases List.mem_cons.mp hx with rfl | hx2
    · calc x.2 ≤ max m x.2 := le_max_right m x.2
        _ = m := hme
    · exact ih m h' x hx2

theorem foldSel_stable (l : List (Int × Int)) :
    ∀ (m : Int) (dp : Option Int), (∀ e ∈ l, e.2 ≤ m) →
      foldSel l m dp = dp := by
  induction l with
  | nil => intro m dp _; rfl
  | cons e rest ih =>
    intro m dp h
    unfold foldSel
    rw [if_neg (not_lt.mpr (h e (List.mem_cons_self e rest)))]
    exact ih m dp fun x hx => h x (List.mem_cons_of_mem e hx)

/-- The strict-greater running-maximum loop selects the index of the first
pair attaining the overall maximal size, whenever that maximum exceeds the
seed. -/
theorem foldSel_firstAttaining (l : List (Int × Int)) :
    ∀ (m : Int) (dp : Option Int), m < maxFrom m l →
      foldSel l m dp = firstAttaining (maxFrom m l) l := by
  induction l with
  | nil =>
    intro m dp h
    exact absurd h (lt_irrefl m)
  | cons e rest ih =>
    intro m dp h
    by_cases h1 : m < e.2
    · have hmax : max m e.2 = e.2 := max_eq_right (le_of_lt h1)
      have hM : maxFrom m (e :: rest) = maxFrom e.2 rest := by
        show maxFrom (max m e.2) rest = _
        rw [hmax]
      by_cases h2 : e.2 < maxFrom e.2 rest
      · have hne : e.2 ≠ maxFrom e.2 rest := ne_of_lt h2
        unfold foldSel firstAttaining
        rw [if_pos h1, hM, if_neg hne]
        exact ih e.2 (some e.1) h2
      · have heq : maxFrom e.2 rest = e.2 :=
          le_antisymm (not_lt.mp h2) (maxFrom_le_self rest e.2)
        unfold foldSel firstAttaining
        rw [if_pos h1, hM, heq, if_pos rfl]
        exact foldSel_stable rest e.2 (some e.1) (maxFrom_eq_self rest e.2 heq)
    · have hmax : max m e.2 = m := max_eq_left (not_lt.mp h1)
      have hM : maxFrom m (e :: rest) = maxFrom m rest := by
        show maxFrom (max m e.2) rest = _
        rw [hmax]
      have hlt : m < maxFrom m rest := by rw [← hM]; exact h
      have hne : e.2 ≠ maxFrom m rest := by
        intro hcontra
        exact h1 (hcontra ▸ hlt)
      unfold foldSel firstAttaining
      rw [if_neg h1, hM, if_neg hne]
      exact ih m dp hlt

/-- Under the hypothesis that every qualifying line parses, the scan loop
of `identify_data_partition` raises no exception and computes the pure
selection fold over the parsed `(index, size)` pairs. -/
theorem scanParts_eq_foldSel (lines : List Chars) :
    ∀ (m : Int) (dp : Option Int),
      (∀ line ∈ lines, qualifies line = true →
        (parseInt (fieldAt 0 line)).isSome ∧ (parseInt (fieldAt 2 line)).isSome) →
      scanParts lines m dp = some (foldSel (entriesOf lines) m dp) := by
  induction lines with
  | nil => intro m dp _; rfl
  | cons line rest ih =>
    intro m dp h
    have hrest : ∀ l ∈ rest, qualifies l = true →
        (parseInt (fieldAt 0 l)).isSome ∧ (parseInt (fieldAt 2 l)).isSome :=
      fun l hl => h l (List.mem_cons_of_mem line hl)
    by_cases hq : qualifies line = true
    · obtain ⟨h0, h2⟩ := h line (List.mem_cons_self line rest) hq
      obtain ⟨p, hp⟩ := Option.isSome_iff_exists.mp h0
      obtain ⟨s, hs⟩ := Option.isSome_iff_exists.mp h2
      have hentry : entryOf line = some (p, s) := by
        unfold entryOf
        rw [if_pos hq, hp, hs]
      have hent : entriesOf (line :: rest) = (p, s) :: entriesOf rest := by
        unfold entriesOf
        rw [List.filterMap_cons, hentry]
      unfold scanParts
      rw [if_pos hq]
      simp only [hs, hp, hent, foldSel]
      by_cases hlt : m < s
      · rw [if_pos hlt, if_pos hlt]
        exact ih s (some p) hrest
      · rw [if_neg hlt, if_neg hlt]
        exact ih m dp hrest
    · have hq' : qualifies line = false := Bool.eq_false_iff.mpr hq
      have hent : entriesOf (line :: rest) = entriesOf rest := by
        unfold entriesOf
        rw [List.filterMap_cons]
        unfold entryOf
        rw [hq']
        simp
      unfold scanParts
      rw [hq']
      simp only [Bool.false_eq_true, if_false]
      rw [hent]
      exact ih m dp hrest

/-- C2, counterexample: a partition table whose single line qualifies
(digit-initial, ≥3 fields, size field parses) but has size 0 makes
`identify_data_partition` return `none`, not the line's index 1, because
the running maximum starts at 0 and only strictly larger sizes are
selected. -/
theorem identify_data_partition_c2_counterexample :
    qualifies (String.toList "1 0x100 0 ext4") = true
  ∧ parseInt (fieldAt 2 (String.toList "1 0x100 0 ext4")) = some 0
  ∧ identify_data_partition "mmcdev=1\n" "1 0x100 0 ext4" = none := by
  decide

/-- C2, amended: provided the `printenv` capture contains the `mmcdev` key,
every qualifying (digit-initial, ≥3-field) line of the partition table has
index and size fields that parse as decimal integers, and the maximal size
is positive, `identify_data_partition` returns the index field of the first
line attaining the maximal size field; in particular, on `printenv` output
`"mmcdev=1\n"` and partition table
`"1 0x100 500 ext4\n2 0x200 9000 ext4\n"` it returns partition 2. -/
theorem identify_data_partition_c2_amended :
    (∀ printenvOut partOut : String,
      (findMmcdev printenvOut.toList).isSome = true →
      (∀ line ∈ splitOnChar '\n' partOut.toList, qualifies line = true →
        (parseInt (fieldAt 0 line)).isSome
          ∧ (parseInt (fieldAt 2 line)).isSome) →
      0 < maxFrom 0 (entriesOf (splitOnChar '\n' partOut.toList)) →
      identify_data_partition printenvOut partOut
        = firstAttaining
            (maxFrom 0 (entriesOf (splitOnChar '\n' partOut.toList)))
            (entriesOf (splitOnChar '\n' partOut.toList)))
  ∧ identify_data_partition "mmcdev=1\n" "1 0x100 500 ext4\n2 0x200 9000 ext4\n"
      = some 2 := by
  constructor
  · intro p q hm hp hmax
    unfold identify_data_partition
    obtain ⟨v, hv⟩ := Option.isSome_iff_exists.mp hm
    rw [hv, scanParts_eq_foldSel _ 0 none hp,
      foldSel_firstAttaining _ 0 none hmax]
  · decide

/-- C2, witness for the amended theorem at a small concrete partition
table. -/
theorem identify_data_partition_c2_witness :
    identify_data_partition "mmcdev=1\n" "1 2 3"
      = firstAttaining
          (maxFrom 0 (entriesOf (splitOnChar '\n' (String.toList "1 2 3"))))
          (entriesOf (splitOnChar '\n' (String.toList "1 2 3"))) :=
  identify_data_partition_c2_amended.1 "mmcdev=1\n" "1 2 3"
    (by decide) (by decide) (by decide)

/-- C10: no operation of the program ever assigns the device record's
`device_id` field after the record is created with `device_id = None`, so
on every execution of `run` the device record still has no id, no
`device_info.json` content is ever written, and whenever the backup stage
is reached the timestamped backup directory is still created. -/
theorem run_c10_device_id_never_set :
    ∀ env : Env,
      (run env).backupJson = none
    ∧ ((run env).device.all fun d => d.device_id.isNone) = true
    ∧ (env.ports.isEmpty = false → env.connectOk = true →
        (run env).backupDirCreated = true) := by
  intro env
  unfold run runBody finalize backup_device_state
  refine ⟨?_, ?_, ?_⟩
  · repeat' split <;> simp_all
  · repeat' split <;> simp_all
  · intro h1 h2
    repeat' split <;> simp_all

/-- C10, witness at a concrete run that reaches the backup stage. -/
theorem run_c10_witness :
    (run envC10).backupJson = none
  ∧ ((run envC10).device.all fun d => d.device_id.isNone) = true
  ∧ (run envC10).backupDirCreated = true :=
  ⟨(run_c10_device_id_never_set envC10).1,
   (run_c10_device_id_never_set envC10).2.1,
   (run_c10_device_id_never_set envC10).2.2 (by decide) rfl⟩
